import Mathlib

/-!
Verification development for the `bag3_analog` repository.

Shallow embedding of the two source files:
* `src/bag3_analog/layout/rdac.py` — `RDAC.draw_layout`, modelled as a
  function from the geometric/parameter environment to a trace of layout
  effects (instances placed, pins added, bbox-to-track connections), or an
  error (Python `AssertionError` / `ValueError`) together with the trace of
  effects performed before the error.
* `src/bag3_analog/schematic/high_pass_diff.py` —
  `bag3_analog__high_pass_diff.design`, modelled as a function from the
  parameter record to the final pin list and a trace of schematic effects.

Host-EDA-framework primitives (grids, track managers, wire arrays, the
`design_resistor` helper, ...) are opaque services per the spec; their
invocations are recorded as trace events.  Python dynamic-typing details
that matter to the claims (string-vs-int `!=`, tuple truthiness, tuple
unpacking errors) are embedded explicitly.
-/

/-! ## Layout side: `RDAC.draw_layout` (layout/rdac.py) -/

/-- One observable layout effect of `RDAC.draw_layout`.
* `addInstance m dx dy my` — `self.add_instance(m_master, xform=Transform(dx, dy, mode))`
  with `my = true` iff the orientation is `Orientation.MY` (mirrored);
* `addPin p` — `self.add_pin(p, ...)` (the two supply `add_pin` calls with
  `connect=True` are recorded the same way);
* `connectB2T inst ip rp` — `self.connect_bbox_to_track_wires(Direction.LOWER,
  vm_lp, inst.get_pin(ip), res_inst.get_pin(rp))`. -/
inductive LEvent
  | addInstance (master : String) (dx dy : Int) (mirrorY : Bool)
  | addPin (pin : String)
  | connectB2T (inst : String) (instPin : String) (resPin : String)
deriving DecidableEq, Repr

/-- Errors `draw_layout` can raise itself: the `assert res_coord0 < dec_coord0`
(AssertionError) and `raise ValueError(f'num_dec={num_dec} ...')`. -/
inductive LErr
  | assertionError
  | valueError (num_dec : Int)
deriving DecidableEq, Repr

/-- Result of a `draw_layout` call: the trace of effects on success, or the
error raised together with the effects performed before it. -/
inductive LResult
  | ok (tr : List LEvent)
  | err (e : LErr) (tr : List LEvent)
deriving DecidableEq, Repr

/-- The environment `draw_layout` reads: the sub-master geometry delivered by
the host framework and the generator parameters.
* `res_w`/`res_h` — `res_master.bound_box.w/h`;
* `res_coord0` — `res_core.core_coord0`;
* `dec_w`/`dec_h` — `dec_master.bound_box.w/h`;
* `dec_coord0` — `dec_core.pg_coord0`;
* `h_pitch` — second component of `self.grid.get_size_pitch(xxm_layer)`,
  where `xxm_layer = dec_core.top_layer`;
* `num_sel_row`/`num_sel_col` — `dec_params['num_sel_row']`/`['num_sel_col']`;
* `num_dec` — `self.params['num_dec']` (a Python int). -/
structure RDACEnv where
  res_w : Int
  res_h : Int
  res_coord0 : Int
  dec_w : Int
  dec_h : Int
  dec_coord0 : Int
  h_pitch : Int
  num_sel_row : Nat
  num_sel_col : Nat
  num_dec : Int
deriving DecidableEq, Repr

/-- `num_sel = num_sel_col + num_sel_row`. -/
def RDACEnv.num_sel (env : RDACEnv) : Nat := env.num_sel_col + env.num_sel_row

/-- `num_in = 1 << num_sel`. -/
def RDACEnv.num_in (env : RDACEnv) : Nat := 2 ^ env.num_sel

/-- `off_y = dec_coord0 - res_coord0 - h_pitch`  (source comment: "TODO: hack
to make resistor array align with passgate array"). -/
def RDACEnv.off_y (env : RDACEnv) : Int := env.dec_coord0 - env.res_coord0 - env.h_pitch

/-- Body of one iteration of the select-pin export loop
(`for idx in range(num_sel)`): with two decoders the pins `sel0<idx>` and
`sel1<idx>` are added, otherwise the pin `sel<idx>`. -/
def selEventsFor (num_dec : Int) (idx : Nat) : List LEvent :=
  if num_dec == 2 then
    [.addPin ("sel0<" ++ toString idx ++ ">"), .addPin ("sel1<" ++ toString idx ++ ">")]
  else
    [.addPin ("sel<" ++ toString idx ++ ">")]

/-- The select-pin export loop, `for idx in range(num_sel)`. -/
def selEvents (num_dec : Int) (num_sel : Nat) : List LEvent :=
  (List.range num_sel).flatMap (selEventsFor num_dec)

/-- The output-pin export block: `out0`/`out1` with two decoders, else `out`. -/
def outEvents (num_dec : Int) : List LEvent :=
  if num_dec == 2 then [.addPin "out0", .addPin "out1"] else [.addPin "out"]

/-- Body of one iteration of the ladder-to-decoder connection loop
(`for idx in range(num_in)`): `dec0_inst`'s `in<idx>` is connected to
`res_inst`'s `out<idx>`; with two decoders `dec1_inst`'s `in<idx>` as well. -/
def connectEventsFor (num_dec : Int) (idx : Nat) : List LEvent :=
  [.connectB2T "dec0" ("in<" ++ toString idx ++ ">") ("out<" ++ toString idx ++ ">")]
  ++ (if num_dec == 2 then
        [.connectB2T "dec1" ("in<" ++ toString idx ++ ">") ("out<" ++ toString idx ++ ">")]
      else [])

/-- The ladder-to-decoder connection loop, `for idx in range(num_in)`. -/
def connectEvents (num_dec : Int) (num_in : Nat) : List LEvent :=
  (List.range num_in).flatMap (connectEventsFor num_dec)

/-- The tail of `draw_layout` shared by the `num_dec ∈ {1, 2}` branches, after
the optional mirrored decoder has been placed: place `dec0_inst` at
`dx = start_x + res_w`, place `res_inst` at `(start_x, off_y)`, export the
select and output pins, connect the ladder taps, and finally add the merged
`VDD`/`VSS` pins (one `add_pin` call each). -/
def mainEvents (env : RDACEnv) (start_x : Int) : List LEvent :=
  [.addInstance "dec" (start_x + env.res_w) 0 false,
   .addInstance "res" start_x env.off_y false]
  ++ selEvents env.num_dec env.num_sel
  ++ outEvents env.num_dec
  ++ connectEvents env.num_dec env.num_in
  ++ [.addPin "VDD", .addPin "VSS"]

/-- Shallow embedding of `RDAC.draw_layout`.  Control flow follows the source:
the assertion `res_coord0 < dec_coord0` is evaluated first; then `num_dec`
selects the placement branch — `num_dec == 2` places the mirrored decoder
`dec1_inst` at `Transform(dx=dec_w, mode=Orientation.MY)` and sets
`start_x = dec_w`, `num_dec == 1` sets `start_x = 0`, anything else raises
`ValueError` with nothing placed. -/
def draw_layout (env : RDACEnv) : LResult :=
  if env.res_coord0 < env.dec_coord0 then
    if env.num_dec == 2 then
      .ok ([.addInstance "dec" env.dec_w 0 true] ++ mainEvents env env.dec_w)
    else if env.num_dec == 1 then
      .ok (mainEvents env 0)
    else
      .err (.valueError env.num_dec) []
  else
    .err .assertionError []

/-- Trace of effects of a layout result (on error: effects before the error). -/
def resultTrace : LResult → List LEvent
  | .ok tr => tr
  | .err _ tr => tr

/-- Error of a layout result, if any. -/
def resultErr : LResult → Option LErr
  | .ok _ => none
  | .err e _ => some e

/-- Names of the pins added in a trace, in order. -/
def pinsOf (tr : List LEvent) : List String :=
  tr.filterMap fun e => match e with
    | .addPin p => some p
    | _ => none

/-- The instances placed in a trace, in order, with their transforms. -/
def instsOf (tr : List LEvent) : List (String × Int × Int × Bool) :=
  tr.filterMap fun e => match e with
    | .addInstance m dx dy my => some (m, dx, dy, my)
    | _ => none

/-- Master names of the instances placed in a trace, in order. -/
def mastersOf (tr : List LEvent) : List String :=
  (instsOf tr).map (·.1)

/-! ## Schematic side: `bag3_analog__high_pass_diff.design` (schematic/high_pass_diff.py) -/

/-- A Python runtime value, as far as `design` manipulates them dynamically:
integers, booleans and strings. -/
inductive PyV
  | int (n : Int)
  | bool (b : Bool)
  | str (s : String)
deriving DecidableEq, Repr

/-- Python `!=` between two values.  Within one type it is structural
disequality; `bool` compares with `int` through its numeric value; in every
other cross-type combination (in particular `str != int`) Python's `!=`
returns `True`. -/
def pyNe : PyV → PyV → Bool
  | .int m, .int n => m != n
  | .bool a, .bool b => a != b
  | .str s, .str t => s != t
  | .bool a, .int n => (if a then (1 : Int) else 0) != n
  | .int n, .bool a => n != (if a then (1 : Int) else 0)
  | _, _ => true

/-- The `ndum` parameter: a Python int or a tuple (of ints). -/
inductive NDum
  | int (n : Int)
  | tup (xs : List Int)
deriving DecidableEq, Repr

/-- The normalisation the source applies to `ndum` before unpacking it:
`if isinstance(ndum, int): ndum = (ndum, 1)` followed by
`if len(ndum) == 2: ndum = (*ndum, True)`. -/
def normNdum (nd : NDum) : List PyV :=
  let l : List PyV := match nd with
    | .int n => [.int n, .int 1]
    | .tup xs => xs.map PyV.int
  if l.length == 2 then l ++ [.bool true] else l

/-- The `cap_val` parameter: a single float (ideal cap only) or a tuple of
four floats `(cc, cpb, cpi, cpo)`.  Float values are modelled as rationals;
only their conversion to strings and zero-ness matter to this generator. -/
inductive CapVal
  | single (c : Rat)
  | quad (c cpb cpi cpo : Rat)
deriving DecidableEq, Repr

/-- Modelled from the spec: `bag.math.float_to_si_string` is an out-of-scope
"unit conversion helper (float-to-string for capacitor values)" of the host
framework, absent from `src/`.  It always returns a Python `str`; the exact
formatting is irrelevant to every claim, so any injective rendering serves. -/
def float_to_si_string (c : Rat) : String :=
  toString c.num ++ "/" ++ toString c.den

/-- One observable schematic effect of `design`:
* `renamePin`/`removePin` — `self.rename_pin`/`self.remove_pin`;
* `designResistor inst l w intent nser npar pplus pminus mid bulk cm` —
  `self.design_resistor(inst, dict(l, w, intent), nser, npar, pplus, pminus,
  mid, bulk[, connect_mid=cm])` (an opaque host-framework helper);
* `removeInstance` — `self.remove_instance`;
* `designMetalRes inst layer w l` — `self.instances[inst].design(layer, w, l)`;
* `arrayInstance inst names` — `self.array_instance(inst, names)`;
* `setParam inst p v` — `self.instances[inst].set_param(p, v)`;
* `reconnectInstance inst conns` — `self.reconnect_instance(inst, conns)`. -/
inductive SEvent
  | renamePin (old new : String)
  | removePin (name : String)
  | designResistor (inst : String) (l w : Int) (intent : String) (nser npar : PyV)
      (pplus pminus mid bulk : String) (connectMid : Option PyV)
  | removeInstance (name : String)
  | designMetalRes (inst : String) (layer w l : Int)
  | arrayInstance (inst : String) (names : List String)
  | setParam (inst : String) (pname value : String)
  | reconnectInstance (inst : String) (conns : List (String × String))
deriving DecidableEq, Repr

/-- The parameter record of `design` (cf. `get_params_info`). -/
structure HPDParams where
  l : Int
  w : Int
  intent : String
  nser : Int
  ndum : NDum
  res_in_info : Option (Int × Int × Int)
  res_out_info : Option (Int × Int × Int)
  sub_name : String
  bias_diff : Bool
  connect_res_to_cap_res_metal : Bool
  connect_dum_to_sub : Bool
  cap_val : CapVal
  extracted : Bool
deriving DecidableEq, Repr

/-- Modelled from the spec: the pin list of the YAML netlist template
(`netlist_info/high_pass_diff.yaml`), which is not under `src/`.  The spec
describes a differential high-pass filter with differential inputs and
outputs, two bias pins (`biasp`, `biasn`) and a bulk/substrate pin `BULK`
(renamed to `sub_name` at the end of `design`). -/
def initial_pins : List String :=
  ["inp", "inn", "outp", "outn", "biasp", "biasn", "BULK"]

/-- Modelled from the spec: the instance list of the YAML netlist template
(not under `src/`).  These are exactly the instance names `design`
references: series resistors, dummy resistors, input/output metal resistors
and the two capacitors. -/
def initial_instances : List String :=
  ["XRESP", "XRESN", "XRESPD", "XRESND",
   "XMRESP1", "XMRESN1", "XMRESP2", "XMRESN2", "XCAPP", "XCAPN"]

/-- `self.rename_pin(old, new)` acting on the pin list. -/
def renamePinL (pins : List String) (old new : String) : List String :=
  pins.map fun p => if p == old then new else p

/-- `self.remove_pin(name)` acting on the pin list. -/
def removePinL (pins : List String) (name : String) : List String :=
  pins.filter fun p => p != name

/-- Result of a `design` call: the final pin list plus the effect trace, or
an error (the `ValueError` from unpacking a malformed `ndum` tuple) with the
effects performed before it. -/
inductive SResult
  | ok (pins : List String) (tr : List SEvent)
  | err (tr : List SEvent)
deriving DecidableEq, Repr

/-- `res_out_conn_pfx`: `'nc_'` when `connect_res_to_cap_res_metal and
has_res_out`, else `''` (the flag is masked by `has_res_out` first). -/
def res_out_conn_pfx (p : HPDParams) : String :=
  if p.connect_res_to_cap_res_metal && p.res_out_info.isSome then "nc_" else ""

/-- `bias_p`: `'biasp'` under differential bias, else the merged `'bias'`. -/
def bias_p (p : HPDParams) : String := if p.bias_diff then "biasp" else "bias"

/-- `bias_n`: `'biasn'` under differential bias, else the merged `'bias'`. -/
def bias_n (p : HPDParams) : String := if p.bias_diff then "biasn" else "bias"

/-- The pin operations of the bias-merging block: under `bias_diff=False`,
`rename_pin('biasp', 'bias')` then `remove_pin('biasn')`; nothing otherwise. -/
def pinEvents (p : HPDParams) : List SEvent :=
  if p.bias_diff then []
  else [.renamePin "biasp" "bias", .removePin "biasn"]

/-- The pin list after the bias-merging block, starting from the template's
pins. -/
def pinsAfterBias (p : HPDParams) : List String :=
  if p.bias_diff then initial_pins
  else removePinL (renamePinL initial_pins "biasp" "bias") "biasn"

/-- The series-resistor design loop over
`res_name_info = (('XRESP', pfx+'outp', bias_p), ('XRESN', pfx+'outn', bias_n))`:
`design_resistor(inst, unit_params, nser, 1, out, bias, out+'_x', sub_name)`. -/
def resEvents (p : HPDParams) : List SEvent :=
  [("XRESP", res_out_conn_pfx p ++ "outp", bias_p p),
   ("XRESN", res_out_conn_pfx p ++ "outn", bias_n p)].map fun info =>
    SEvent.designResistor info.1 p.l p.w p.intent (.int p.nser) (.int 1)
      info.2.1 info.2.2 (info.2.1 ++ "_x") p.sub_name none

/-- `dum_conns`: both `sub_name` when `connect_dum_to_sub`, else
`(bias_p, bias_n)`. -/
def dum_conns (p : HPDParams) : String × String :=
  if p.connect_dum_to_sub then (p.sub_name, p.sub_name) else (bias_p p, bias_n p)

/-- `dum_mid_conns_pfx`: `(sub_name+'_p', sub_name+'_n')` when the two dummy
connections coincide, else the connections themselves. -/
def dum_mid_pfx (p : HPDParams) : String × String :=
  if (dum_conns p).1 == (dum_conns p).2 then (p.sub_name ++ "_p", p.sub_name ++ "_n")
  else dum_conns p

/-- The dummy-resistor loop body, after `ndum` was normalised to the 3-tuple
`[ndum_par, ndum_ser, dum_connect_mid]`.  The source guard is
`if not ndum: remove_instance(name) else: design_resistor(name, unit_params,
ndum_ser, ndum_par, conn, conn, mid_pfx+'_dum_x', bulk=sub_name,
connect_mid=dum_connect_mid)` — `ndum` here being the normalised tuple, whose
Python truthiness is its non-emptiness. -/
def dumEvents (p : HPDParams) (ndum_par ndum_ser dum_connect_mid : PyV) : List SEvent :=
  [("XRESPD", (dum_conns p).1, (dum_mid_pfx p).1),
   ("XRESND", (dum_conns p).2, (dum_mid_pfx p).2)].map fun info =>
    if ([ndum_par, ndum_ser, dum_connect_mid] : List PyV).isEmpty then
      SEvent.removeInstance info.1
    else
      SEvent.designResistor info.1 p.l p.w p.intent ndum_ser ndum_par
        info.2.1 info.2.1 (info.2.2 ++ "_dum_x") p.sub_name (some dum_connect_mid)

/-- The input metal-resistor block: design `XMRESP1`/`XMRESN1` from
`res_in_info`, or remove them when it is `None`. -/
def mresInEvents (p : HPDParams) : List SEvent :=
  match p.res_in_info with
  | some (ly, ww, ll) =>
    [SEvent.designMetalRes "XMRESP1" ly ww ll, SEvent.designMetalRes "XMRESN1" ly ww ll]
  | none => [SEvent.removeInstance "XMRESP1", SEvent.removeInstance "XMRESN1"]

/-- The output metal-resistor block: design `XMRESP2`/`XMRESN2` from
`res_out_info`, or remove them when it is `None`. -/
def mresOutEvents (p : HPDParams) : List SEvent :=
  match p.res_out_info with
  | some (ly, ww, ll) =>
    [SEvent.designMetalRes "XMRESP2" ly ww ll, SEvent.designMetalRes "XMRESN2" ly ww ll]
  | none => [SEvent.removeInstance "XMRESP2", SEvent.removeInstance "XMRESN2"]

/-- `cap_name_info`: per capacitor side, the instance, input/output/bias nets
and the `'nc_'`-prefix flag (`cap_in_conn_pfx` on the `XCAPP` row and
`cap_out_conn_pfx` on the `XCAPN` row, exactly as in the source). -/
def cap_name_info (p : HPDParams) : List (String × String × String × String × String) :=
  [("XCAPP", "inp", "outp", bias_p p, if p.res_in_info.isSome then "nc_" else ""),
   ("XCAPN", "inn", "outn", bias_n p, if p.res_out_info.isSome then "nc_" else "")]

/-- The `(cc, cpb, cpi, cpo)` quadruple: a single float is promoted to
`(cap_val, 0, 0, 0)`. -/
def capQuad (cv : CapVal) : Rat × Rat × Rat × Rat :=
  match cv with
  | .single c => (c, 0, 0, 0)
  | .quad c cb ci co => (c, cb, ci, co)

/-- The per-side `cap_info_list`: the main variant `instC` always, plus the
parasitic variants `instPB`/`instPI`/`instPO` guarded by the source's
conditions `cpb != 0` etc. — where `cpb`, `cpi`, `cpo` are the *strings*
produced by `float_to_si_string` and the comparison is Python `!=` against
the int `0`. -/
def cap_info_list (p : HPDParams) (inst inName outName biasName ccPfx : String) :
    List (String × String × String × String) :=
  let q := capQuad p.cap_val
  let cpb := float_to_si_string q.2.1
  let cpi := float_to_si_string q.2.2.1
  let cpo := float_to_si_string q.2.2.2
  [(inst ++ "C", float_to_si_string q.1, ccPfx ++ inName, ccPfx ++ outName)]
  ++ (if pyNe (.str cpb) (.int 0) then [(inst ++ "PB", cpb, biasName, p.sub_name)] else [])
  ++ (if pyNe (.str cpi) (.int 0) then [(inst ++ "PI", cpi, inName, p.sub_name)] else [])
  ++ (if pyNe (.str cpo) (.int 0) then [(inst ++ "PO", cpo, outName, p.sub_name)] else [])

/-- The capacitor block: with `extracted` both capacitor instances are
removed; otherwise each is arrayed into its `cap_info_list` variants, and
each variant gets its `c` parameter and its `PLUS`/`MINUS` reconnection. -/
def capEvents (p : HPDParams) : List SEvent :=
  if p.extracted then
    (cap_name_info p).map fun info => SEvent.removeInstance info.1
  else
    (cap_name_info p).flatMap fun info =>
      match info with
      | (inst, inName, outName, biasName, ccPfx) =>
        let cil := cap_info_list p inst inName outName biasName ccPfx
        [SEvent.arrayInstance inst (cil.map (fun x => x.1))]
        ++ cil.flatMap fun ci4 =>
             [SEvent.setParam ci4.1 "c" ci4.2.1,
              SEvent.reconnectInstance ci4.1 [("PLUS", ci4.2.2.1), ("MINUS", ci4.2.2.2)]]

/-- Shallow embedding of `bag3_analog__high_pass_diff.design`, following the
source step by step: bias-pin merging, series-resistor design, `ndum`
normalisation (a malformed tuple raises the Python `ValueError` of the
3-way unpacking, after the series resistors were already designed),
dummy-resistor design, metal-resistor design/removal, the capacitor block,
and the final `rename_pin('BULK', sub_name)`. -/
def design (p : HPDParams) : SResult :=
  match normNdum p.ndum with
  | [ndum_par, ndum_ser, dum_connect_mid] =>
    .ok (renamePinL (pinsAfterBias p) "BULK" p.sub_name)
      (pinEvents p ++ resEvents p ++ dumEvents p ndum_par ndum_ser dum_connect_mid
       ++ mresInEvents p ++ mresOutEvents p ++ capEvents p
       ++ [SEvent.renamePin "BULK" p.sub_name])
  | _ => .err (pinEvents p ++ resEvents p)

/-- Final pin list of a design result (empty on error). -/
def sPins : SResult → List String
  | .ok pins _ => pins
  | .err _ => []

/-- Effect trace of a design result. -/
def sTrace : SResult → List SEvent
  | .ok _ tr => tr
  | .err tr => tr

/-- Whether the design call raised an error. -/
def sIsErr : SResult → Bool
  | .ok _ _ => false
  | .err _ => true

/-- The `array_instance` calls in a trace: `(instance, variant names)`. -/
def arrayEventsOf (tr : List SEvent) : List (String × List String) :=
  tr.filterMap fun e => match e with
    | .arrayInstance inst names => some (inst, names)
    | _ => none

/-- `remove_instance` calls in a trace, in order. -/
def removedInstancesOf (tr : List SEvent) : List String :=
  tr.filterMap fun e => match e with
    | .removeInstance n => some n
    | _ => none

/-- Effect of one schematic event on the set of existing instances:
`remove_instance` deletes the named instance, `array_instance` replaces it
with the named variants; everything else leaves the instance set unchanged. -/
def applyEvent (insts : List String) : SEvent → List String
  | .removeInstance n => insts.filter fun i => i != n
  | .arrayInstance n names => insts.flatMap fun i => if i == n then names else [i]
  | _ => insts

/-- The instances existing after replaying a trace over the template's
initial instance list. -/
def finalInstances (tr : List SEvent) : List String :=
  tr.foldl applyEvent initial_instances

/-! ## Generic trace lemmas -/

theorem pinsOf_append (a b : List LEvent) : pinsOf (a ++ b) = pinsOf a ++ pinsOf b :=
  List.filterMap_append a b _

theorem instsOf_append (a b : List LEvent) : instsOf (a ++ b) = instsOf a ++ instsOf b :=
  List.filterMap_append a b _

theorem pinsOf_flatMap (l : List Nat) (f : Nat → List LEvent) :
    pinsOf (l.flatMap f) = l.flatMap fun i => pinsOf (f i) := by
  induction l with
  | nil => rfl
  | cons a t ih => simp only [List.flatMap_cons, pinsOf_append, ih]

theorem instsOf_flatMap (l : List Nat) (f : Nat → List LEvent) :
    instsOf (l.flatMap f) = l.flatMap fun i => instsOf (f i) := by
  induction l with
  | nil => rfl
  | cons a t ih => simp only [List.flatMap_cons, instsOf_append, ih]

theorem pinsOf_selEvents_one (n : Nat) :
    pinsOf (selEvents 1 n) = (List.range n).map fun i => "sel<" ++ toString i ++ ">" := by
  unfold selEvents
  rw [pinsOf_flatMap]
  simp only [selEventsFor, pinsOf]
  simp only [Int.reduceBEq, Bool.false_eq_true, if_false, List.filterMap_cons,
    List.filterMap_nil]
  exact (List.map_eq_flatMap _ _).symm

theorem pinsOf_selEvents_two (n : Nat) :
    pinsOf (selEvents 2 n) =
      (List.range n).flatMap fun i =>
        ["sel0<" ++ toString i ++ ">", "sel1<" ++ toString i ++ ">"] := by
  unfold selEvents
  rw [pinsOf_flatMap]
  simp [selEventsFor, pinsOf]

theorem instsOf_selEvents (d : Int) (n : Nat) : instsOf (selEvents d n) = [] := by
  unfold selEvents
  rw [instsOf_flatMap]
  by_cases hd : (d == 2) = true <;> simp [selEventsFor, hd, instsOf]

theorem pinsOf_connectEvents (d : Int) (n : Nat) : pinsOf (connectEvents d n) = [] := by
  unfold connectEvents
  rw [pinsOf_flatMap]
  by_cases hd : (d == 2) = true <;> simp [connectEventsFor, hd, pinsOf]

theorem instsOf_connectEvents (d : Int) (n : Nat) : instsOf (connectEvents d n) = [] := by
  unfold connectEvents
  rw [instsOf_flatMap]
  by_cases hd : (d == 2) = true <;> simp [connectEventsFor, hd, instsOf]

theorem draw_layout_one (env : RDACEnv) (h : env.res_coord0 < env.dec_coord0)
    (h1 : env.num_dec = 1) : draw_layout env = .ok (mainEvents env 0) := by
  simp [draw_layout, h, h1]

theorem draw_layout_two (env : RDACEnv) (h : env.res_coord0 < env.dec_coord0)
    (h2 : env.num_dec = 2) :
    draw_layout env = .ok ([.addInstance "dec" env.dec_w 0 true] ++ mainEvents env env.dec_w) := by
  simp [draw_layout, h, h2]

theorem instsOf_outEvents (d : Int) : instsOf (outEvents d) = [] := by
  by_cases hd : (d == 2) = true <;> simp [outEvents, hd, instsOf]

theorem pinsOf_outEvents_one : pinsOf (outEvents 1) = ["out"] := rfl

theorem pinsOf_outEvents_two : pinsOf (outEvents 2) = ["out0", "out1"] := rfl

theorem instsOf_two_inst (m1 m2 : String) (a1 b1 a2 b2 : Int) (f1 f2 : Bool) :
    instsOf [LEvent.addInstance m1 a1 b1 f1, LEvent.addInstance m2 a2 b2 f2]
      = [(m1, a1, b1, f1), (m2, a2, b2, f2)] := rfl

theorem pinsOf_two_inst (m1 m2 : String) (a1 b1 a2 b2 : Int) (f1 f2 : Bool) :
    pinsOf [LEvent.addInstance m1 a1 b1 f1, LEvent.addInstance m2 a2 b2 f2] = [] := rfl

theorem instsOf_supply : instsOf [LEvent.addPin "VDD", LEvent.addPin "VSS"] = [] := rfl

theorem pinsOf_supply : pinsOf [LEvent.addPin "VDD", LEvent.addPin "VSS"] = ["VDD", "VSS"] := rfl

theorem instsOf_one_inst (m : String) (a b : Int) (f : Bool) :
    instsOf [LEvent.addInstance m a b f] = [(m, a, b, f)] := rfl

/-! ## Concrete environments used by witnesses and counterexamples -/

/-- A concrete valid environment with one decoder and `num_sel = 2`. -/
def envOneDec : RDACEnv :=
  { res_w := 100, res_h := 50, res_coord0 := 0, dec_w := 200, dec_h := 80,
    dec_coord0 := 10, h_pitch := 2, num_sel_row := 1, num_sel_col := 1, num_dec := 1 }

/-- The same environment with two decoders. -/
def envTwoDec : RDACEnv := { envOneDec with num_dec := 2 }

/-- The same environment with the unsupported decoder count 3. -/
def envThreeDec : RDACEnv := { envOneDec with num_dec := 3 }

/-- The same environment with the geometric precondition violated
(`core_coord0 = 20 ≥ 10 = pg_coord0`). -/
def envBadGeom : RDACEnv := { envOneDec with res_coord0 := 20 }

/-! ## Claim C1 -/

/-- C1: for every valid parameter set (geometric precondition satisfied),
`RDAC.draw_layout` with `num_dec = 1` places exactly one decoder instance and
exports exactly the pins `sel<i>` for `i ∈ 0..num_sel-1`, a single `out`,
and single merged `VDD` and `VSS` pins; with `num_dec = 2` it places exactly
two decoder instances and exports exactly `sel0<i>`/`sel1<i>` for every `i`,
`out0`, `out1`, and single merged `VDD`/`VSS` pins.  The full pin list is
characterised, so each pin occurs exactly once. -/
theorem rdac_pin_and_instance_export (env : RDACEnv)
    (h : env.res_coord0 < env.dec_coord0) :
    (env.num_dec = 1 →
      resultErr (draw_layout env) = none ∧
      mastersOf (resultTrace (draw_layout env)) = ["dec", "res"] ∧
      pinsOf (resultTrace (draw_layout env)) =
        ((List.range env.num_sel).map fun i => "sel<" ++ toString i ++ ">")
          ++ ["out", "VDD", "VSS"]) ∧
    (env.num_dec = 2 →
      resultErr (draw_layout env) = none ∧
      mastersOf (resultTrace (draw_layout env)) = ["dec", "dec", "res"] ∧
      pinsOf (resultTrace (draw_layout env)) =
        ((List.range env.num_sel).flatMap fun i =>
          ["sel0<" ++ toString i ++ ">", "sel1<" ++ toString i ++ ">"])
          ++ ["out0", "out1", "VDD", "VSS"]) := by
  constructor
  · intro h1
    rw [draw_layout_one env h h1]
    refine ⟨rfl, ?_, ?_⟩
    · simp only [mastersOf, resultTrace, mainEvents, h1, instsOf_append,
        instsOf_selEvents, instsOf_connectEvents, instsOf_outEvents,
        instsOf_two_inst, instsOf_supply]
      simp
    · simp only [resultTrace, mainEvents, h1, pinsOf_append,
        pinsOf_selEvents_one, pinsOf_connectEvents, pinsOf_outEvents_one,
        pinsOf_two_inst, pinsOf_supply]
      simp
  · intro h2
    rw [draw_layout_two env h h2]
    refine ⟨rfl, ?_, ?_⟩
    · simp only [mastersOf, resultTrace, mainEvents, h2, instsOf_append,
        instsOf_selEvents, instsOf_connectEvents, instsOf_outEvents,
        instsOf_two_inst, instsOf_supply, instsOf_one_inst]
      simp
    · simp only [resultTrace, mainEvents, h2, pinsOf_append,
        pinsOf_selEvents_two, pinsOf_connectEvents, pinsOf_outEvents_two,
        pinsOf_two_inst, pinsOf_supply]
      simp [pinsOf]

/-- Witness for C1: the characterisation evaluated at the concrete
environments with one and two decoders (`num_sel = 2`). -/
theorem rdac_pin_and_instance_export_witness :
    mastersOf (resultTrace (draw_layout envOneDec)) = ["dec", "res"] ∧
    pinsOf (resultTrace (draw_layout envOneDec)) =
      ["sel<0>", "sel<1>", "out", "VDD", "VSS"] ∧
    mastersOf (resultTrace (draw_layout envTwoDec)) = ["dec", "dec", "res"] ∧
    pinsOf (resultTrace (draw_layout envTwoDec)) =
      ["sel0<0>", "sel1<0>", "sel0<1>", "sel1<1>", "out0", "out1", "VDD", "VSS"] := by
  have h1 := (rdac_pin_and_instance_export envOneDec (by decide)).1 rfl
  have h2 := (rdac_pin_and_instance_export envTwoDec (by decide)).2 rfl
  exact ⟨h1.2.1, by rw [h1.2.2]; decide, h2.2.1, by rw [h2.2.2]; decide⟩

/-! ## Claim C2 -/

/-- C2: for every `num_dec` other than 1 or 2, `draw_layout` raises an error
with an empty effect trace — no sub-block instance placed and no pin added
before the error — and when the geometric precondition holds (so the earlier
assertion does not fire first) the error is precisely the `ValueError` over
the unsupported `num_dec`. -/
theorem rdac_invalid_num_dec_error (env : RDACEnv)
    (h1 : env.num_dec ≠ 1) (h2 : env.num_dec ≠ 2) :
    (∃ e, draw_layout env = .err e []) ∧
    (env.res_coord0 < env.dec_coord0 →
      draw_layout env = .err (.valueError env.num_dec) []) := by
  constructor
  · by_cases hg : env.res_coord0 < env.dec_coord0
    · exact ⟨.valueError env.num_dec, by simp [draw_layout, hg, h1, h2]⟩
    · exact ⟨.assertionError, by simp [draw_layout, hg]⟩
  · intro hg
    simp [draw_layout, hg, h1, h2]

/-- Witness for C2: `num_dec = 3` on the valid geometry raises the
`ValueError` with nothing placed. -/
theorem rdac_invalid_num_dec_error_witness :
    draw_layout envThreeDec = .err (.valueError 3) [] := by
  exact (rdac_invalid_num_dec_error envThreeDec (by decide) (by decide)).2 (by decide)

/-! ## Claim C4 -/

theorem mem_connectEvents_dec0 (d : Int) (n idx : Nat) (hidx : idx < n) :
    LEvent.connectB2T "dec0" ("in<" ++ toString idx ++ ">") ("out<" ++ toString idx ++ ">")
      ∈ connectEvents d n := by
  unfold connectEvents
  rw [List.mem_flatMap]
  exact ⟨idx, List.mem_range.mpr hidx, by simp [connectEventsFor]⟩

theorem mem_connectEvents_dec1 (n idx : Nat) (hidx : idx < n) :
    LEvent.connectB2T "dec1" ("in<" ++ toString idx ++ ">") ("out<" ++ toString idx ++ ">")
      ∈ connectEvents 2 n := by
  unfold connectEvents
  rw [List.mem_flatMap]
  exact ⟨idx, List.mem_range.mpr hidx, by simp [connectEventsFor]⟩

/-- C4: for every `idx < 2^(num_sel_col+num_sel_row)`, `draw_layout` connects
the resistor-ladder tap `out<idx>` to the first decoder's input `in<idx>`,
and also to the second decoder's `in<idx>` when `num_dec = 2`. -/
theorem rdac_ladder_decoder_connections (env : RDACEnv)
    (h : env.res_coord0 < env.dec_coord0)
    (hnd : env.num_dec = 1 ∨ env.num_dec = 2) :
    ∀ idx, idx < 2 ^ (env.num_sel_col + env.num_sel_row) →
      LEvent.connectB2T "dec0" ("in<" ++ toString idx ++ ">") ("out<" ++ toString idx ++ ">")
        ∈ resultTrace (draw_layout env) ∧
      (env.num_dec = 2 →
        LEvent.connectB2T "dec1" ("in<" ++ toString idx ++ ">") ("out<" ++ toString idx ++ ">")
          ∈ resultTrace (draw_layout env)) := by
  intro idx hidx
  have hin : idx < env.num_in := hidx
  have hc0 := mem_connectEvents_dec0 env.num_dec env.num_in idx hin
  rcases hnd with h1 | h2
  · rw [draw_layout_one env h h1]
    constructor
    · simp only [resultTrace, mainEvents, List.mem_append]
      tauto
    · intro h2
      rw [h1] at h2
      exact absurd h2 (by decide)
  · rw [draw_layout_two env h h2]
    have hc1 := mem_connectEvents_dec1 env.num_in idx hin
    constructor
    · simp only [resultTrace, mainEvents, List.mem_append]
      tauto
    · intro _
      simp only [resultTrace, mainEvents, List.mem_append, h2]
      tauto

/-- Witness for C4: in the two-decoder concrete environment (`num_sel = 2`,
hence 4 taps), tap 3 is connected to `in<3>` on both decoders. -/
theorem rdac_ladder_decoder_connections_witness :
    LEvent.connectB2T "dec0" "in<3>" "out<3>" ∈ resultTrace (draw_layout envTwoDec) ∧
    LEvent.connectB2T "dec1" "in<3>" "out<3>" ∈ resultTrace (draw_layout envTwoDec) := by
  have h := rdac_ladder_decoder_connections envTwoDec (by decide) (Or.inr rfl) 3 (by decide)
  exact ⟨h.1, h.2 rfl⟩

/-! ## Claim C5 -/

/-- C5: `draw_layout` asserts that the decoder's reference coordinate
`pg_coord0` lies strictly above the ladder's `core_coord0`; when violated it
fails with the assertion before any instance is placed (empty trace), and
under the precondition the assertion never fires. -/
theorem rdac_coord_assertion (env : RDACEnv) :
    (¬ env.res_coord0 < env.dec_coord0 →
      draw_layout env = .err .assertionError []) ∧
    (env.res_coord0 < env.dec_coord0 →
      ∀ tr, draw_layout env ≠ .err .assertionError tr) := by
  constructor
  · intro hg
    simp [draw_layout, hg]
  · intro hg tr
    unfold draw_layout
    rw [if_pos hg]
    by_cases h2 : (env.num_dec == 2) = true
    · simp [h2]
    · by_cases h1 : (env.num_dec == 1) = true
      · simp [h2, h1]
      · simp [h2, h1]

/-- Witness for C5: the assertion fires (with empty trace) on the violated
geometry and does not fire on the valid one. -/
theorem rdac_coord_assertion_witness :
    draw_layout envBadGeom = .err .assertionError [] ∧
    draw_layout envOneDec ≠ .err .assertionError [] :=
  ⟨(rdac_coord_assertion envBadGeom).1 (by decide),
   (rdac_coord_assertion envOneDec).2 (by decide) []⟩

/-! ## Claim C3 -/

/-- C3, counterexample: in the concrete valid environment
(`core_coord0 = 0`, `pg_coord0 = 10`, `h_pitch = 2`), the resistor ladder is
placed at vertical offset `off_y = 8`, so its reference coordinate lands at
`core_coord0 + off_y = 8`.  This does *not* line up with `pg_coord0 = 10`:
it sits exactly one full `h_pitch` below it, a deviation no grid-pitch
snapping of the aligned position could produce (any snap moves a coordinate
by strictly less than one pitch). -/
theorem rdac_res_alignment_counterexample :
    instsOf (resultTrace (draw_layout envOneDec)) =
      [("dec", 100, 0, false), ("res", 0, 8, false)] ∧
    envOneDec.res_coord0 + 8 ≠ envOneDec.dec_coord0 ∧
    envOneDec.res_coord0 + 8 = envOneDec.dec_coord0 - envOneDec.h_pitch ∧
    ¬ (envOneDec.dec_coord0 - (envOneDec.res_coord0 + 8) < envOneDec.h_pitch) := by
  refine ⟨by decide, by decide, by decide, by decide⟩

/-- C3 (amended): the decoder and resistor-ladder instances are placed
edge-to-edge along the horizontal axis (with one decoder: ladder at `dx = 0`,
decoder at `dx = res_w`; with two: mirrored decoder at `dx = dec_w`, ladder
at `dx = dec_w`, second decoder at `dx = dec_w + res_w`), and the ladder's
vertical offset is `off_y = pg_coord0 - core_coord0 - h_pitch`, where
`h_pitch` is the vertical size-pitch of the decoder's top layer
(`xxm_layer`, not the coarsest layer in use): `core_coord0 + off_y` lands
exactly one such pitch *below* `pg_coord0` rather than lining up with it
(the source comments this offset as a hack). -/
theorem rdac_placement_amended (env : RDACEnv)
    (h : env.res_coord0 < env.dec_coord0) :
    (env.num_dec = 1 →
      instsOf (resultTrace (draw_layout env)) =
        [("dec", env.res_w, 0, false),
         ("res", 0, env.dec_coord0 - env.res_coord0 - env.h_pitch, false)]) ∧
    (env.num_dec = 2 →
      instsOf (resultTrace (draw_layout env)) =
        [("dec", env.dec_w, 0, true),
         ("dec", env.dec_w + env.res_w, 0, false),
         ("res", env.dec_w, env.dec_coord0 - env.res_coord0 - env.h_pitch, false)]) := by
  constructor
  · intro h1
    rw [draw_layout_one env h h1]
    simp only [resultTrace, mainEvents, h1, instsOf_append, instsOf_selEvents,
      instsOf_connectEvents, instsOf_outEvents, instsOf_two_inst, instsOf_supply,
      RDACEnv.off_y]
    simp
  · intro h2
    rw [draw_layout_two env h h2]
    simp only [resultTrace, mainEvents, h2, instsOf_append, instsOf_selEvents,
      instsOf_connectEvents, instsOf_outEvents, instsOf_two_inst, instsOf_supply,
      instsOf_one_inst, RDACEnv.off_y]
    simp

/-- Witness for the amended C3: the placement list evaluated at the two
concrete environments. -/
theorem rdac_placement_amended_witness :
    instsOf (resultTrace (draw_layout envTwoDec)) =
      [("dec", 200, 0, true), ("dec", 300, 0, false), ("res", 200, 8, false)] := by
  have h2 := (rdac_placement_amended envTwoDec (by decide)).2 rfl
  rw [h2]
  decide

/-! ## Schematic claim lemmas -/

theorem normNdum_int (n : Int) : normNdum (.int n) = [.int n, .int 1, .bool true] := rfl

theorem design_ok (p : HPDParams) (a b c : PyV) (hn : normNdum p.ndum = [a, b, c]) :
    design p = .ok (renamePinL (pinsAfterBias p) "BULK" p.sub_name)
      (pinEvents p ++ resEvents p ++ dumEvents p a b c
       ++ mresInEvents p ++ mresOutEvents p ++ capEvents p
       ++ [SEvent.renamePin "BULK" p.sub_name]) := by
  unfold design
  rw [hn]

theorem pins_merged_eq :
    removePinL (renamePinL initial_pins "biasp" "bias") "biasn" =
      ["inp", "inn", "outp", "outn", "bias", "BULK"] := by decide

theorem renamePinL_merged (s : String) :
    renamePinL ["inp", "inn", "outp", "outn", "bias", "BULK"] "BULK" s =
      ["inp", "inn", "outp", "outn", "bias", s] := by
  simp [renamePinL]

/-! ## Claim C9 -/

/-- C9: with `bias_diff=False` (and a substrate net name that does not
collide with the bias pin names), `design` merges the bias pins before any
connection logic runs: the first two effects of the trace are
`rename_pin('biasp', 'bias')` and `remove_pin('biasn')`, the final pin list
contains exactly one `bias` pin and no `biasn` pin, and both series-resistor
branches (`XRESP`, `XRESN`) are designed against the same `bias` net. -/
theorem hpd_bias_merge (p : HPDParams) (hb : p.bias_diff = false)
    (hs1 : p.sub_name ≠ "bias") (hs2 : p.sub_name ≠ "biasn")
    (a b c : PyV) (hn : normNdum p.ndum = [a, b, c]) :
    sIsErr (design p) = false ∧
    (sPins (design p)).count "bias" = 1 ∧
    "biasn" ∉ sPins (design p) ∧
    (sTrace (design p)).take 2 =
      [SEvent.renamePin "biasp" "bias", SEvent.removePin "biasn"] ∧
    SEvent.designResistor "XRESP" p.l p.w p.intent (.int p.nser) (.int 1)
      (res_out_conn_pfx p ++ "outp") "bias"
      ((res_out_conn_pfx p ++ "outp") ++ "_x") p.sub_name none ∈ sTrace (design p) ∧
    SEvent.designResistor "XRESN" p.l p.w p.intent (.int p.nser) (.int 1)
      (res_out_conn_pfx p ++ "outn") "bias"
      ((res_out_conn_pfx p ++ "outn") ++ "_x") p.sub_name none ∈ sTrace (design p) := by
  rw [design_ok p a b c hn]
  have hpins : pinsAfterBias p = ["inp", "inn", "outp", "outn", "bias", "BULK"] := by
    rw [pinsAfterBias, hb]
    simp [pins_merged_eq]
  have hpe : pinEvents p = [SEvent.renamePin "biasp" "bias", SEvent.removePin "biasn"] := by
    rw [pinEvents, hb]
    simp
  have hbp : bias_p p = "bias" := by rw [bias_p, hb]; simp
  have hbn : bias_n p = "bias" := by rw [bias_n, hb]; simp
  have hres : resEvents p =
      [SEvent.designResistor "XRESP" p.l p.w p.intent (.int p.nser) (.int 1)
        (res_out_conn_pfx p ++ "outp") "bias"
        ((res_out_conn_pfx p ++ "outp") ++ "_x") p.sub_name none,
       SEvent.designResistor "XRESN" p.l p.w p.intent (.int p.nser) (.int 1)
        (res_out_conn_pfx p ++ "outn") "bias"
        ((res_out_conn_pfx p ++ "outn") ++ "_x") p.sub_name none] := by
    simp [resEvents, hbp, hbn]
  refine ⟨rfl, ?_, ?_, ?_, ?_, ?_⟩
  · simp only [sPins, hpins, renamePinL_merged]
    simp [List.count_cons, hs1]
  · simp only [sPins, hpins, renamePinL_merged]
    simp [List.mem_cons]
    exact fun h2 => hs2 h2.symm
  · simp only [sTrace, hpe]
    rfl
  · simp only [sTrace, hres, List.mem_append, List.mem_cons]
    tauto
  · simp only [sTrace, hres, List.mem_append, List.mem_cons]
    tauto

/-- A concrete parameter set used by schematic witnesses: common-mode bias,
no metal resistors, single `1 nF` ideal cap, one dummy resistor. -/
def hpdBase : HPDParams :=
  { l := 100, w := 10, intent := "std", nser := 4, ndum := .int 1,
    res_in_info := none, res_out_info := none, sub_name := "VDD",
    bias_diff := false, connect_res_to_cap_res_metal := true,
    connect_dum_to_sub := false, cap_val := .single (1 / 1000000000 : Rat),
    extracted := false }

/-- Witness for C9 at the concrete common-mode-bias parameter set. -/
theorem hpd_bias_merge_witness :
    (sPins (design hpdBase)).count "bias" = 1 ∧
    "biasn" ∉ sPins (design hpdBase) ∧
    (sTrace (design hpdBase)).take 2 =
      [SEvent.renamePin "biasp" "bias", SEvent.removePin "biasn"] := by
  have h := hpd_bias_merge hpdBase rfl (by decide) (by decide)
    (.int 1) (.int 1) (.bool true) rfl
  exact ⟨h.2.1, h.2.2.1, h.2.2.2.1⟩

/-! ## Claim C10 -/

/-- C10: with `res_out_info = None`, the series resistors `XRESP`/`XRESN` are
designed directly against `outp`/`outn` — no `nc_` prefix — for *any* value
of `connect_res_to_cap_res_metal`: the flag is masked by `has_res_out` and
silently ignored when no output metal resistor exists. -/
theorem hpd_res_out_direct (p : HPDParams) (ho : p.res_out_info = none)
    (a b c : PyV) (hn : normNdum p.ndum = [a, b, c]) :
    sIsErr (design p) = false ∧
    SEvent.designResistor "XRESP" p.l p.w p.intent (.int p.nser) (.int 1)
      "outp" (bias_p p) "outp_x" p.sub_name none ∈ sTrace (design p) ∧
    SEvent.designResistor "XRESN" p.l p.w p.intent (.int p.nser) (.int 1)
      "outn" (bias_n p) "outn_x" p.sub_name none ∈ sTrace (design p) := by
  rw [design_ok p a b c hn]
  have hpfx : res_out_conn_pfx p = "" := by
    simp [res_out_conn_pfx, ho]
  have hres : resEvents p =
      [SEvent.designResistor "XRESP" p.l p.w p.intent (.int p.nser) (.int 1)
        "outp" (bias_p p) "outp_x" p.sub_name none,
       SEvent.designResistor "XRESN" p.l p.w p.intent (.int p.nser) (.int 1)
        "outn" (bias_n p) "outn_x" p.sub_name none] := by
    simp [resEvents, hpfx]
  refine ⟨rfl, ?_, ?_⟩
  · simp only [sTrace, hres, List.mem_append, List.mem_cons]
    tauto
  · simp only [sTrace, hres, List.mem_append, List.mem_cons]
    tauto

/-- Witness for C10 at a concrete parameter set with
`connect_res_to_cap_res_metal = True` but no output metal resistor. -/
theorem hpd_res_out_direct_witness :
    SEvent.designResistor "XRESP" 100 10 "std" (.int 4) (.int 1)
      "outp" "bias" "outp_x" "VDD" none ∈ sTrace (design hpdBase) ∧
    SEvent.designResistor "XRESN" 100 10 "std" (.int 4) (.int 1)
      "outn" "bias" "outn_x" "VDD" none ∈ sTrace (design hpdBase) := by
  have h := hpd_res_out_direct hpdBase rfl (.int 1) (.int 1) (.bool true) rfl
  exact ⟨h.2.1, h.2.2⟩

/-! ## Claim C6 -/

theorem not_mem_filter_self (x : String) (l : List String) :
    x ∉ l.filter fun y => y != x := by simp

theorem not_mem_filter_of_not_mem (x y : String) (l : List String) (h : x ∉ l) :
    x ∉ l.filter fun z => z != y :=
  fun hx => h (List.mem_of_mem_filter hx)

/-- C6: with `extracted=True`, `design` removes both capacitor instances
(`XCAPP` and `XCAPN`) regardless of `cap_val` or any other capacitor-related
parameter, performs no `array_instance` call (so no capacitor variant is
created), and the final instance set contains neither capacitor. -/
theorem hpd_extracted_removes_caps (p : HPDParams) (he : p.extracted = true)
    (a b c : PyV) (hn : normNdum p.ndum = [a, b, c]) :
    sIsErr (design p) = false ∧
    SEvent.removeInstance "XCAPP" ∈ sTrace (design p) ∧
    SEvent.removeInstance "XCAPN" ∈ sTrace (design p) ∧
    (∀ inst names, SEvent.arrayInstance inst names ∉ sTrace (design p)) ∧
    "XCAPP" ∉ finalInstances (sTrace (design p)) ∧
    "XCAPN" ∉ finalInstances (sTrace (design p)) := by
  rw [design_ok p a b c hn]
  have hcap : capEvents p = [.removeInstance "XCAPP", .removeInstance "XCAPN"] := by
    simp [capEvents, he, cap_name_info]
  simp only [sTrace]
  refine ⟨rfl, ?_, ?_, ?_, ?_, ?_⟩
  · simp only [hcap, List.mem_append, List.mem_cons]
    tauto
  · simp only [hcap, List.mem_append, List.mem_cons]
    tauto
  · intro inst names
    simp only [hcap, List.mem_append, List.mem_cons]
    rintro ((((((hm | hm) | hm) | hm) | hm) | hm) | hm)
    · revert hm
      by_cases hb : p.bias_diff = true <;> simp [pinEvents, hb]
    · revert hm
      simp [resEvents]
    · revert hm
      simp [dumEvents]
    · revert hm
      rcases hi : p.res_in_info with _ | ⟨ly, ww, ll⟩ <;> simp [mresInEvents, hi]
    · revert hm
      rcases ho : p.res_out_info with _ | ⟨ly, ww, ll⟩ <;> simp [mresOutEvents, ho]
    · simp at hm
    · simp at hm
  · rw [finalInstances, hcap]
    simp only [List.foldl_append, List.foldl_cons, List.foldl_nil]
    simp only [applyEvent]
    exact not_mem_filter_of_not_mem _ _ _ (not_mem_filter_self _ _)
  · rw [finalInstances, hcap]
    simp only [List.foldl_append, List.foldl_cons, List.foldl_nil]
    simp only [applyEvent]
    exact not_mem_filter_self _ _

/-- Witness for C6: extraction at a concrete parameter set with a non-zero
main capacitor value. -/
theorem hpd_extracted_removes_caps_witness :
    SEvent.removeInstance "XCAPP" ∈ sTrace (design { hpdBase with extracted := true }) ∧
    "XCAPP" ∉ finalInstances (sTrace (design { hpdBase with extracted := true })) := by
  have h := hpd_extracted_removes_caps { hpdBase with extracted := true } rfl
    (.int 1) (.int 1) (.bool true) rfl
  exact ⟨h.2.1, h.2.2.2.2.1⟩

/-! ## Claim C7 -/

/-- The base parameter set with differential bias. -/
def hpdDiff : HPDParams := { hpdBase with bias_diff := true }

/-- C7 (code-bug evidence): at the concrete parameter set with a
single-float `cap_val` (equivalent to `(cap_val, 0, 0, 0)`: all parasitics
zero) and `extracted=False`, `design` arrays *four* variants per capacitor
side — the main variant plus all three parasitic variants — because the
source compares the `float_to_si_string` *strings* `cpb`/`cpi`/`cpo`
against the int `0` with Python `!=`, which is always `True` for a string.
The claimed behaviour (exactly one variant per side, `XCAPPC`/`XCAPNC`)
does not hold. -/
theorem hpd_cap_variant_bug :
    arrayEventsOf (sTrace (design hpdDiff)) =
      [("XCAPP", ["XCAPPC", "XCAPPPB", "XCAPPPI", "XCAPPPO"]),
       ("XCAPN", ["XCAPNC", "XCAPNPB", "XCAPNPI", "XCAPNPO"])] ∧
    arrayEventsOf (sTrace (design hpdDiff)) ≠
      [("XCAPP", ["XCAPPC"]), ("XCAPN", ["XCAPNC"])] := by
  refine ⟨by decide, by decide⟩

/-! ## Claim C8 -/

/-- `ndum = 0` (a Python int). -/
def pNdumZero : HPDParams := { hpdDiff with ndum := .int 0, extracted := true }

/-- `ndum = ()` (the empty tuple). -/
def pNdumEmpty : HPDParams := { hpdDiff with ndum := .tup [], extracted := true }

/-- C8 (code-bug evidence): with `ndum = 0` the dummy resistors are *not*
removed: `ndum` is first normalised to the non-empty (hence truthy) tuple
`(0, 1, True)`, so `if not ndum` never fires and `design_resistor` is called
on `XRESPD`/`XRESND` with `nser = 1`, `npar = 0`; both dummies survive in
the final instance set.  With `ndum = ()` the 3-way unpacking raises a
`ValueError` instead of removing the dummies. -/
theorem hpd_ndum_zero_bug :
    SEvent.designResistor "XRESPD" 100 10 "std" (.int 1) (.int 0)
      "biasp" "biasp" "biasp_dum_x" "VDD" (some (.bool true)) ∈ sTrace (design pNdumZero) ∧
    SEvent.designResistor "XRESND" 100 10 "std" (.int 1) (.int 0)
      "biasn" "biasn" "biasn_dum_x" "VDD" (some (.bool true)) ∈ sTrace (design pNdumZero) ∧
    SEvent.removeInstance "XRESPD" ∉ sTrace (design pNdumZero) ∧
    SEvent.removeInstance "XRESND" ∉ sTrace (design pNdumZero) ∧
    "XRESPD" ∈ finalInstances (sTrace (design pNdumZero)) ∧
    "XRESND" ∈ finalInstances (sTrace (design pNdumZero)) ∧
    sIsErr (design pNdumEmpty) = true := by
  refine ⟨by decide, by decide, by decide, by decide, by decide, by decide, by decide⟩
